import Mathlib

/-!
Verification of the dcf77-faker firmware core against its specification.

The development shallowly embeds three parts of the source:
* `src/dcf77.rs` — the DCF77 time-code data model (`Dcf77Data`), its fixed
  initial value (`Dcf77Data.new`), the minute increment
  (`increment_minute`) and the frame serialization (`to_bits`);
* `src/i2c_controller.rs` — the I2C controller's status inspection
  (`check_bus_status`) and the `send`/`receive` transfer drivers, run
  against an abstract bus model that records the issued bus operations;
* `src/main.rs` — the RTC tick interrupt handler (`rtcTick`), modelled as a
  pure transition on the scheduler/shared state that also emits the list of
  shared-state writes it performs.

Machine integers are modelled as `Nat`; wherever the source relies on a
fixed width (u8 address bytes, the u16 civil-warning mask, the u64 frame
word) the translation applies the corresponding mask / modulus explicitly.
-/

set_option maxRecDepth 40000

/-! ## Time-code data model (src/dcf77.rs) -/

/-- The DCF77 time code, field for field as in `Dcf77Data` in
`src/dcf77.rs`.  Each BCD digit is its own field; `civil_warning` uses only
its bottom 14 bits (masked at serialization time, as in the source). -/
structure Dcf77Data where
  civil_warning : Nat
  abnormal_operation : Bool
  summer_announcement : Bool
  cest : Bool
  cet : Bool
  leap_second_announcement : Bool
  minute_ones : Nat
  minute_tens : Nat
  hour_ones : Nat
  hour_tens : Nat
  day_of_month_ones : Nat
  day_of_month_tens : Nat
  day_of_week : Nat
  month_ones : Nat
  month_ten : Bool
  year_in_century_ones : Nat
  year_in_century_tens : Nat
  deriving DecidableEq

/-- The fixed initial stamp, `Dcf77Data::new` in the source
(10:40 on Tuesday 1990-04-10... more precisely minute 40, hour 10,
day-of-month 10, Tuesday, April, year 90, CEST set). -/
def Dcf77Data.new : Dcf77Data where
  civil_warning := 0
  abnormal_operation := false
  summer_announcement := false
  cest := true
  cet := false
  leap_second_announcement := false
  minute_ones := 0
  minute_tens := 4
  hour_tens := 1
  hour_ones := 0
  day_of_month_tens := 1
  day_of_month_ones := 0
  day_of_week := 2
  month_ones := 4
  month_ten := false
  year_in_century_ones := 0
  year_in_century_tens := 9

/-- `Dcf77Data::increment_minute` from `src/dcf77.rs`, as a pure state
transformer: minute ones carry into minute tens, minute tens into hour
ones; reaching hour 24 wraps both hour digits to 0; the date is
deliberately left untouched. -/
def increment_minute (d : Dcf77Data) : Dcf77Data :=
  let d := { d with minute_ones := d.minute_ones + 1 }
  if d.minute_ones < 10 then d else
  let d := { d with minute_ones := 0, minute_tens := d.minute_tens + 1 }
  if d.minute_tens < 6 then d else
  let d := { d with minute_tens := 0, hour_ones := d.hour_ones + 1 }
  if d.hour_tens = 2 ∧ 4 ≤ d.hour_ones then
    { d with hour_ones := 0, hour_tens := 0 }
  else if d.hour_ones < 10 then d
  else { d with hour_ones := 0, hour_tens := d.hour_tens + 1 }

/-- `Dcf77Data::to_bits` from `src/dcf77.rs`: serialization of the time
code into the (u64) DCF77 frame word, including the three even-parity
bits 28, 35 and 58, translated branch for branch from the source. -/
def to_bits (d : Dcf77Data) : Nat :=
  let value : Nat := 0
  -- bit 0 is always 0
  -- bits 1 through 14
  let value := value ||| ((d.civil_warning &&& 0b11111111111111) <<< 1)
  -- bit 15
  let value := if d.abnormal_operation then value ||| (1 <<< 15) else value
  -- bit 16
  let value := if d.summer_announcement then value ||| (1 <<< 16) else value
  -- bit 17
  let value := if d.cest then value ||| (1 <<< 17) else value
  -- bit 18
  let value := if d.cet then value ||| (1 <<< 18) else value
  -- bit 19
  let value := if d.leap_second_announcement then value ||| (1 <<< 19) else value
  -- bit 20
  let value := value ||| (1 <<< 20)
  -- bits 21 through 27
  let mp := false
  let (value, mp) := if d.minute_ones &&& 1 ≠ 0 then (value ||| (1 <<< 21), !mp) else (value, mp)
  let (value, mp) := if d.minute_ones &&& 2 ≠ 0 then (value ||| (1 <<< 22), !mp) else (value, mp)
  let (value, mp) := if d.minute_ones &&& 4 ≠ 0 then (value ||| (1 <<< 23), !mp) else (value, mp)
  let (value, mp) := if d.minute_ones &&& 8 ≠ 0 then (value ||| (1 <<< 24), !mp) else (value, mp)
  let (value, mp) := if d.minute_tens &&& 1 ≠ 0 then (value ||| (1 <<< 25), !mp) else (value, mp)
  let (value, mp) := if d.minute_tens &&& 2 ≠ 0 then (value ||| (1 <<< 26), !mp) else (value, mp)
  let (value, mp) := if d.minute_tens &&& 4 ≠ 0 then (value ||| (1 <<< 27), !mp) else (value, mp)
  -- bit 28
  let value := if mp then value ||| (1 <<< 28) else value
  -- bits 29 through 34
  let hp := false
  let (value, hp) := if d.hour_ones &&& 1 ≠ 0 then (value ||| (1 <<< 29), !hp) else (value, hp)
  let (value, hp) := if d.hour_ones &&& 2 ≠ 0 then (value ||| (1 <<< 30), !hp) else (value, hp)
  let (value, hp) := if d.hour_ones &&& 4 ≠ 0 then (value ||| (1 <<< 31), !hp) else (value, hp)
  let (value, hp) := if d.hour_ones &&& 8 ≠ 0 then (value ||| (1 <<< 32), !hp) else (value, hp)
  let (value, hp) := if d.hour_tens &&& 1 ≠ 0 then (value ||| (1 <<< 33), !hp) else (value, hp)
  let (value, hp) := if d.hour_tens &&& 2 ≠ 0 then (value ||| (1 <<< 34), !hp) else (value, hp)
  -- bit 35
  let value := if hp then value ||| (1 <<< 35) else value
  -- bits 36 through 41
  let dp := false
  let (value, dp) := if d.day_of_month_ones &&& 1 ≠ 0 then (value ||| (1 <<< 36), !dp) else (value, dp)
  let (value, dp) := if d.day_of_month_ones &&& 2 ≠ 0 then (value ||| (1 <<< 37), !dp) else (value, dp)
  let (value, dp) := if d.day_of_month_ones &&& 4 ≠ 0 then (value ||| (1 <<< 38), !dp) else (value, dp)
  let (value, dp) := if d.day_of_month_ones &&& 8 ≠ 0 then (value ||| (1 <<< 39), !dp) else (value, dp)
  let (value, dp) := if d.day_of_month_tens &&& 1 ≠ 0 then (value ||| (1 <<< 40), !dp) else (value, dp)
  let (value, dp) := if d.day_of_month_tens &&& 2 ≠ 0 then (value ||| (1 <<< 41), !dp) else (value, dp)
  -- bits 42 through 44
  let (value, dp) := if d.day_of_week &&& 1 ≠ 0 then (value ||| (1 <<< 42), !dp) else (value, dp)
  let (value, dp) := if d.day_of_week &&& 2 ≠ 0 then (value ||| (1 <<< 43), !dp) else (value, dp)
  let (value, dp) := if d.day_of_week &&& 4 ≠ 0 then (value ||| (1 <<< 44), !dp) else (value, dp)
  -- bits 45 through 49
  let (value, dp) := if d.month_ones &&& 1 ≠ 0 then (value ||| (1 <<< 45), !dp) else (value, dp)
  let (value, dp) := if d.month_ones &&& 2 ≠ 0 then (value ||| (1 <<< 46), !dp) else (value, dp)
  let (value, dp) := if d.month_ones &&& 4 ≠ 0 then (value ||| (1 <<< 47), !dp) else (value, dp)
  let (value, dp) := if d.month_ones &&& 8 ≠ 0 then (value ||| (1 <<< 48), !dp) else (value, dp)
  let (value, dp) := if d.month_ten then (value ||| (1 <<< 49), !dp) else (value, dp)
  -- bits 50 through 57
  let (value, dp) := if d.year_in_century_ones &&& 1 ≠ 0 then (value ||| (1 <<< 50), !dp) else (value, dp)
  let (value, dp) := if d.year_in_century_ones &&& 2 ≠ 0 then (value ||| (1 <<< 51), !dp) else (value, dp)
  let (value, dp) := if d.year_in_century_ones &&& 4 ≠ 0 then (value ||| (1 <<< 52), !dp) else (value, dp)
  let (value, dp) := if d.year_in_century_ones &&& 8 ≠ 0 then (value ||| (1 <<< 53), !dp) else (value, dp)
  let (value, dp) := if d.year_in_century_tens &&& 1 ≠ 0 then (value ||| (1 <<< 54), !dp) else (value, dp)
  let (value, dp) := if d.year_in_century_tens &&& 2 ≠ 0 then (value ||| (1 <<< 55), !dp) else (value, dp)
  let (value, dp) := if d.year_in_century_tens &&& 4 ≠ 0 then (value ||| (1 <<< 56), !dp) else (value, dp)
  let (value, dp) := if d.year_in_century_tens &&& 8 ≠ 0 then (value ||| (1 <<< 57), !dp) else (value, dp)
  -- bit 58
  let value := if dp then value ||| (1 <<< 58) else value
  value

/-- Iterated `increment_minute`: `iterInc n d` applies the minute
increment `n` times to `d`. -/
def iterInc : Nat → Dcf77Data → Dcf77Data
  | 0, d => d
  | n + 1, d => iterInc n (increment_minute d)

/-- A time code is reachable when it arises from the fixed initial stamp
`Dcf77Data.new` by some number of `increment_minute` steps. -/
def Reachable (d : Dcf77Data) : Prop :=
  ∃ n : Nat, iterInc n Dcf77Data.new = d

/-- Number of set bits of `v` among the `len` bit positions starting at
position `lo` (population count of the bit group `lo .. lo+len-1`). -/
def onesIn (v : Nat) : Nat → Nat → Nat
  | _, 0 => 0
  | lo, len + 1 => (if v.testBit lo then 1 else 0) + onesIn v (lo + 1) len

/-- A copy of the fixed initial stamp with the four minute/hour digits
replaced; every reachable time code has this shape. -/
def mkDigits (mo mt ho ht : Nat) : Dcf77Data :=
  { Dcf77Data.new with minute_ones := mo, minute_tens := mt, hour_ones := ho, hour_tens := ht }

/-- Invariant of all time codes reachable from `Dcf77Data.new`: the
date/flag fields keep their initial values and the minute/hour digits stay
inside their BCD ranges (hour below 24). -/
def ReachInv (d : Dcf77Data) : Prop :=
  d.civil_warning = 0 ∧ d.abnormal_operation = false ∧ d.summer_announcement = false ∧
  d.cest = true ∧ d.cet = false ∧ d.leap_second_announcement = false ∧
  d.minute_ones < 10 ∧ d.minute_tens < 6 ∧ d.hour_ones < 10 ∧ d.hour_tens < 3 ∧
  (d.hour_tens = 2 → d.hour_ones < 4) ∧
  d.day_of_month_ones = 0 ∧ d.day_of_month_tens = 1 ∧ d.day_of_week = 2 ∧
  d.month_ones = 4 ∧ d.month_ten = false ∧
  d.year_in_century_ones = 0 ∧ d.year_in_century_tens = 9

instance (d : Dcf77Data) : Decidable (ReachInv d) := by
  unfold ReachInv; infer_instance

lemma reachInv_new : ReachInv Dcf77Data.new := by decide

lemma shape_of_inv {d : Dcf77Data} (h : ReachInv d) :
    ∃ mo mt ho ht : Nat, mo < 10 ∧ mt < 6 ∧ ho < 10 ∧ ht < 3 ∧ (ht = 2 → ho < 4) ∧
      d = mkDigits mo mt ho ht := by
  obtain ⟨h1, h2, h3, h4, h5, h6, h7, h8, h9, h10, h11, h12, h13, h14, h15, h16, h17, h18⟩ := h
  cases d
  simp only at h1 h2 h3 h4 h5 h6 h7 h8 h9 h10 h11 h12 h13 h14 h15 h16 h17 h18
  subst h1 h2 h3 h4 h5 h6 h12 h13 h14 h15 h16 h17 h18
  exact ⟨_, _, _, _, h7, h8, h9, h10, h11, rfl⟩

lemma hour_value_lt {ho ht : Nat} (hho : ho < 10) (hht : ht < 3) (himp : ht = 2 → ho < 4) :
    ht * 10 + ho < 24 := by
  rcases ht with _ | _ | _ | n
  · omega
  · omega
  · have := himp rfl; omega
  · omega

lemma reachInv_step_aux :
    ∀ mo < 10, ∀ mt < 6, ∀ ho < 10, ∀ ht < 3,
      (ht * 10 + ho < 24 → ReachInv (increment_minute (mkDigits mo mt ho ht))) := by
  decide

lemma reachInv_step {d : Dcf77Data} (h : ReachInv d) : ReachInv (increment_minute d) := by
  obtain ⟨mo, mt, ho, ht, hmo, hmt, hho, hht, himp, rfl⟩ := shape_of_inv h
  exact reachInv_step_aux mo hmo mt hmt ho hho ht hht (hour_value_lt hho hht himp)

lemma reachInv_iterInc (n : Nat) : ∀ d : Dcf77Data, ReachInv d → ReachInv (iterInc n d) := by
  induction n with
  | zero => intro d h; exact h
  | succ n ih => intro d h; exact ih _ (reachInv_step h)

lemma reachInv_of_reachable {d : Dcf77Data} (h : Reachable d) : ReachInv d := by
  obtain ⟨n, rfl⟩ := h
  exact reachInv_iterInc n _ reachInv_new

/-- The frame-level facts checked per reachable digit combination: even
parity of the three covered bit groups and the two fixed marker bits. -/
def frameProps (d : Dcf77Data) : Prop :=
  onesIn (to_bits d) 21 8 % 2 = 0 ∧
  onesIn (to_bits d) 29 7 % 2 = 0 ∧
  onesIn (to_bits d) 36 23 % 2 = 0 ∧
  (to_bits d).testBit 0 = false ∧
  (to_bits d).testBit 20 = true

instance (d : Dcf77Data) : Decidable (frameProps d) := by
  unfold frameProps; infer_instance

set_option maxHeartbeats 4000000 in
lemma frame_aux :
    ∀ mo < 10, ∀ mt < 6, ∀ ho < 10, ∀ ht < 3, frameProps (mkDigits mo mt ho ht) := by
  decide

lemma frameProps_of_reachable {d : Dcf77Data} (h : Reachable d) : frameProps d := by
  obtain ⟨mo, mt, ho, ht, hmo, hmt, hho, hht, -, rfl⟩ :=
    shape_of_inv (reachInv_of_reachable h)
  exact frame_aux mo hmo mt hmt ho hho ht hht

/-- C1: for every TimeCode reachable from `Dcf77Data.new` via
`increment_minute`, the frame produced by `to_bits` has an even population
count over bits 21–28, over bits 29–35 and over bits 36–58: each group's
parity bit (28, 35, 58) makes the set-bit count of its covered group
even. -/
theorem to_bits_even_parity_of_reachable (d : Dcf77Data) (h : Reachable d) :
    onesIn (to_bits d) 21 8 % 2 = 0 ∧
    onesIn (to_bits d) 29 7 % 2 = 0 ∧
    onesIn (to_bits d) 36 23 % 2 = 0 := by
  have hf := frameProps_of_reachable h
  unfold frameProps at hf
  exact ⟨hf.1, hf.2.1, hf.2.2.1⟩

/-- Witness for C1: the initial stamp itself is reachable and its frame
satisfies the three even-parity group conditions. -/
theorem to_bits_even_parity_of_reachable_witness :
    Reachable Dcf77Data.new ∧
    (onesIn (to_bits Dcf77Data.new) 21 8 % 2 = 0 ∧
     onesIn (to_bits Dcf77Data.new) 29 7 % 2 = 0 ∧
     onesIn (to_bits Dcf77Data.new) 36 23 % 2 = 0) :=
  ⟨⟨0, rfl⟩, to_bits_even_parity_of_reachable Dcf77Data.new ⟨0, rfl⟩⟩

/-- C2: for every TimeCode reachable from `Dcf77Data.new` via
`increment_minute`, the frame produced by `to_bits` has bit 0 equal to 0
(minute start marker) and bit 20 equal to 1 (time start marker). -/
theorem to_bits_markers_of_reachable (d : Dcf77Data) (h : Reachable d) :
    (to_bits d).testBit 0 = false ∧ (to_bits d).testBit 20 = true := by
  have hf := frameProps_of_reachable h
  unfold frameProps at hf
  exact ⟨hf.2.2.2.1, hf.2.2.2.2⟩

/-- Witness for C2: the initial stamp is reachable and its frame has
bit 0 clear and bit 20 set. -/
theorem to_bits_markers_of_reachable_witness :
    Reachable Dcf77Data.new ∧
    ((to_bits Dcf77Data.new).testBit 0 = false ∧
     (to_bits Dcf77Data.new).testBit 20 = true) :=
  ⟨⟨0, rfl⟩, to_bits_markers_of_reachable Dcf77Data.new ⟨0, rfl⟩⟩

lemma iterInc_add (m n : Nat) (d : Dcf77Data) :
    iterInc (m + n) d = iterInc n (iterInc m d) := by
  induction m generalizing d with
  | zero => simp [iterInc]
  | succ m ih =>
    have : m + 1 + n = (m + n) + 1 := by omega
    rw [this]
    show iterInc (m + n) (increment_minute d) = _
    rw [ih]
    rfl

/-- The time code reached from the initial stamp after `k` whole hours of
minute increments: still minute 40, with the hour advanced by `k`
(mod 24). -/
def hourState (k : Nat) : Dcf77Data :=
  mkDigits 0 4 ((10 + k) % 24 % 10) ((10 + k) % 24 / 10)

lemma iterInc_60_hourState : ∀ k < 24, iterInc 60 (hourState k) = hourState (k + 1) := by
  decide

lemma iterInc_60_mul : ∀ k : Nat, k ≤ 24 → iterInc (60 * k) Dcf77Data.new = hourState k := by
  intro k
  induction k with
  | zero => intro _; decide
  | succ k ih =>
    intro hk
    have hsplit : 60 * (k + 1) = 60 * k + 60 := by ring
    rw [hsplit, iterInc_add, ih (by omega)]
    exact iterInc_60_hourState k (by omega)

lemma iterInc_1440_new : iterInc 1440 Dcf77Data.new = Dcf77Data.new := by
  have h := iterInc_60_mul 24 (by norm_num)
  norm_num at h
  rw [h]
  decide

/-- C3: applying `increment_minute` 1440 times to `Dcf77Data.new` restores
the original minute and hour digits, and after each of those 1440
applications the hour digits encode a value below 24. -/
theorem iterInc_1440_cycle_and_hour_bound :
    (iterInc 1440 Dcf77Data.new).minute_ones = Dcf77Data.new.minute_ones ∧
    (iterInc 1440 Dcf77Data.new).minute_tens = Dcf77Data.new.minute_tens ∧
    (iterInc 1440 Dcf77Data.new).hour_ones = Dcf77Data.new.hour_ones ∧
    (iterInc 1440 Dcf77Data.new).hour_tens = Dcf77Data.new.hour_tens ∧
    (∀ k : Nat, 1 ≤ k → k ≤ 1440 →
      (iterInc k Dcf77Data.new).hour_tens * 10 + (iterInc k Dcf77Data.new).hour_ones < 24) := by
  refine ⟨by rw [iterInc_1440_new], by rw [iterInc_1440_new], by rw [iterInc_1440_new],
    by rw [iterInc_1440_new], ?_⟩
  intro k _ _
  have h := reachInv_iterInc k _ reachInv_new
  obtain ⟨-, -, -, -, -, -, -, -, hho, hht, himp, -⟩ := h
  exact hour_value_lt hho hht himp

/-- Witness for C3: after a single minute increment from the initial stamp
the hour digits still encode a value below 24. -/
theorem iterInc_1440_cycle_and_hour_bound_witness :
    (iterInc 1 Dcf77Data.new).hour_tens * 10 + (iterInc 1 Dcf77Data.new).hour_ones < 24 :=
  iterInc_1440_cycle_and_hour_bound.2.2.2.2 1 (by decide) (by decide)

/-- C4: for every time code satisfying the field invariants (minute ones
below 10, minute tens below 6, hour value below 24), `increment_minute`
leaves the civil-warning bits, the five status flags, day-of-month,
day-of-week, month and year fields unchanged; being a Lean function it is
total by construction. -/
theorem increment_minute_frame (d : Dcf77Data)
    (h1 : d.minute_ones < 10) (h2 : d.minute_tens < 6)
    (h3 : d.hour_tens * 10 + d.hour_ones < 24) :
    (increment_minute d).civil_warning = d.civil_warning ∧
    (increment_minute d).abnormal_operation = d.abnormal_operation ∧
    (increment_minute d).summer_announcement = d.summer_announcement ∧
    (increment_minute d).cest = d.cest ∧
    (increment_minute d).cet = d.cet ∧
    (increment_minute d).leap_second_announcement = d.leap_second_announcement ∧
    (increment_minute d).day_of_month_ones = d.day_of_month_ones ∧
    (increment_minute d).day_of_month_tens = d.day_of_month_tens ∧
    (increment_minute d).day_of_week = d.day_of_week ∧
    (increment_minute d).month_ones = d.month_ones ∧
    (increment_minute d).month_ten = d.month_ten ∧
    (increment_minute d).year_in_century_ones = d.year_in_century_ones ∧
    (increment_minute d).year_in_century_tens = d.year_in_century_tens := by
  cases d
  simp only [increment_minute]
  split_ifs <;> simp

/-- Witness for C4: the frame conditions of `increment_minute` at the
initial stamp, whose fields satisfy the hypotheses. -/
theorem increment_minute_frame_witness :
    Dcf77Data.new.minute_ones < 10 ∧
    (increment_minute Dcf77Data.new).civil_warning = Dcf77Data.new.civil_warning ∧
    (increment_minute Dcf77Data.new).day_of_week = Dcf77Data.new.day_of_week :=
  ⟨by decide,
   (increment_minute_frame Dcf77Data.new (by decide) (by decide) (by decide)).1,
   (increment_minute_frame Dcf77Data.new (by decide) (by decide) (by decide)).2.2.2.2.2.2.2.2.1⟩

/-! ## I2C controller (src/i2c_controller.rs) -/

/-- The kind of error of an I2C operation, `I2cErrorKind` in
`src/i2c_controller.rs`. -/
inductive I2cErrorKind where
  | arbitrationLost
  | busError
  | notAcknowledged
  | invalidAddress
  deriving DecidableEq

/-- The byte of an I2C transmission at which an error was detected,
`I2cErrorByteInfo` in the source. -/
inductive I2cErrorByteInfo where
  | address (a : Nat)
  | data (index : Nat) (byte : Nat)
  | stopBit
  deriving DecidableEq

/-- An I2C error: a kind paired with the byte locator, `I2cError` in the
source. -/
structure I2cError where
  kind : I2cErrorKind
  byte_info : I2cErrorByteInfo
  deriving DecidableEq

/-- `I2cErrorKind::to_error` from the source. -/
def I2cErrorKind.to_error (k : I2cErrorKind) (bi : I2cErrorByteInfo) : I2cError :=
  { kind := k, byte_info := bi }

/-- `I2cErrorKind::at_address` from the source. -/
def I2cErrorKind.at_address (k : I2cErrorKind) (a : Nat) : I2cError :=
  k.to_error (I2cErrorByteInfo.address a)

/-- The SERCOM STATUS register bits inspected after a byte transfer:
BUSERR, ARBLOST and RXNACK.  Per the SAM L21 register layout, RXNACK set
means the peripheral answered the last byte with NACK (no
acknowledgement); RXNACK clear means it answered with ACK. -/
structure BusStatus where
  buserr : Bool
  arblost : Bool
  rxnack : Bool
  deriving DecidableEq

/-- The pure decision tail of `wait_and_check_bus_status` from
`src/i2c_controller.rs` (the part after the MB wait/clear): inspects the
status register bits in source order and produces the typed error, if any.
The source tests `rxnack().bit_is_clear()` for the NotAcknowledged case,
which this translation reproduces as `rxnack = false`. -/
def check_bus_status (st : BusStatus) (bi : I2cErrorByteInfo) : Except I2cError Unit :=
  if st.buserr then Except.error (I2cErrorKind.busError.to_error bi)
  else if st.arblost then Except.error (I2cErrorKind.arbitrationLost.to_error bi)
  else if st.rxnack = false then Except.error (I2cErrorKind.notAcknowledged.to_error bi)
  else Except.ok ()

/-- A bus operation issued by the driver to the SERCOM register block:
writing the ADDR register, writing the DATA register, reading the DATA
register, issuing the ACK-and-read-next command, or issuing the STOP
command. -/
inductive BusOp where
  | setAddr (v : Nat)
  | writeData (b : Nat)
  | readData
  | cmdReadAck
  | cmdStop
  deriving DecidableEq

/-- Abstract model of the bus/hardware as seen through the status and data
registers: the status observed after the address phase, after the `i`-th
data byte, and after the STOP command, plus the byte delivered by the
`i`-th DATA read. -/
structure I2cBus where
  addrStatus : BusStatus
  dataStatus : Nat → BusStatus
  stopStatus : BusStatus
  readByte : Nat → Nat

/-- The data-phase loop of `send`: writes each byte to the DATA register
and checks the bus status with the byte's index, stopping at the first
error, as in the `for byte in data` loop of the source. -/
def sendData (bus : I2cBus) : List Nat → Nat → Except I2cError Unit × List BusOp
  | [], _ => (Except.ok (), [])
  | b :: rest, idx =>
    match check_bus_status (bus.dataStatus idx) (I2cErrorByteInfo.data idx b) with
    | Except.error e => (Except.error e, [BusOp.writeData b])
    | Except.ok _ =>
      let r := sendData bus rest (idx + 1)
      (r.fst, BusOp.writeData b :: r.snd)

/-- `SercomI2cController::send` from `src/i2c_controller.rs`: rejects
addresses wider than 7 bits before touching the bus, then drives the
address phase (write direction, address shifted left by one), the data
bytes in order and the STOP command, checking the bus status after each
phase.  Alongside the result it returns the list of bus operations
actually issued. -/
def send (bus : I2cBus) (address : Nat) (data : List Nat) :
    Except I2cError Unit × List BusOp :=
  if address &&& 0b10000000 ≠ 0 then
    (Except.error (I2cErrorKind.invalidAddress.at_address address), [])
  else
    match check_bus_status bus.addrStatus (I2cErrorByteInfo.address address) with
    | Except.error e => (Except.error e, [BusOp.setAddr ((address <<< 1) % 256)])
    | Except.ok _ =>
      let r := sendData bus data 0
      match r.fst with
      | Except.error e => (Except.error e, BusOp.setAddr ((address <<< 1) % 256) :: r.snd)
      | Except.ok _ =>
        (check_bus_status bus.stopStatus I2cErrorByteInfo.stopBit,
         BusOp.setAddr ((address <<< 1) % 256) :: r.snd ++ [BusOp.cmdStop])

/-- The read loop of `receive`: reads a byte from the DATA register,
checks the bus status, hands the byte to the handler and either issues
ACK-and-read-next or NACK-and-STOP, as in the `loop` of the source.  The
source loop runs until the handler declines or an error occurs; `fuel`
bounds the number of iterations of that unbounded loop (exhausted fuel
ends the loop without a STOP, an artifact never reached when the handler
declines within `fuel` bytes).  The stateful `FnMut` handler of the source
is modelled as a pure function of the byte index and byte value. -/
def receiveLoop (bus : I2cBus) (handle : Nat → Nat → Bool) :
    Nat → Nat → Except I2cError Unit × List BusOp
  | 0, _ => (Except.ok (), [])
  | fuel + 1, idx =>
    let byte := bus.readByte idx
    match check_bus_status (bus.dataStatus idx) (I2cErrorByteInfo.data idx byte) with
    | Except.error e => (Except.error e, [BusOp.readData])
    | Except.ok _ =>
      if handle idx byte then
        let r := receiveLoop bus handle fuel (idx + 1)
        (r.fst, BusOp.readData :: BusOp.cmdReadAck :: r.snd)
      else
        (check_bus_status bus.stopStatus I2cErrorByteInfo.stopBit,
         [BusOp.readData, BusOp.cmdStop])

/-- `SercomI2cController::receive` from `src/i2c_controller.rs`: rejects
addresses wider than 7 bits before touching the bus, then drives the
address phase (read direction: address shifted left by one, low bit set)
and the read loop. -/
def receive (bus : I2cBus) (address : Nat) (handle : Nat → Nat → Bool) (fuel : Nat) :
    Except I2cError Unit × List BusOp :=
  if address &&& 0b10000000 ≠ 0 then
    (Except.error (I2cErrorKind.invalidAddress.at_address address), [])
  else
    match check_bus_status bus.addrStatus (I2cErrorByteInfo.address address) with
    | Except.error e => (Except.error e, [BusOp.setAddr (((address <<< 1) ||| 1) % 256)])
    | Except.ok _ =>
      let r := receiveLoop bus handle fuel 0
      (r.fst, BusOp.setAddr (((address <<< 1) ||| 1) % 256) :: r.snd)

/-- C5: the status inspection is inverted with respect to the claim.  When
the byte completed with an acknowledgement (BUSERR, ARBLOST and RXNACK all
clear) the code returns `NotAcknowledged`, and when the hardware reports a
missing acknowledgement (RXNACK set, no fault) the code returns `Ok` —
the opposite of the claimed and documented behaviour. -/
theorem check_bus_status_inverted_nack :
    check_bus_status { buserr := false, arblost := false, rxnack := false }
        (I2cErrorByteInfo.address 39)
      = Except.error (I2cErrorKind.notAcknowledged.to_error (I2cErrorByteInfo.address 39)) ∧
    check_bus_status { buserr := false, arblost := false, rxnack := true }
        (I2cErrorByteInfo.address 39)
      = Except.ok () := by
  constructor <;> rfl

/-- C6: an address with the top bit set is rejected by `send` and
`receive` with `InvalidAddress` at an `Address` locator before any bus
operation is issued: the recorded operation list is empty. -/
theorem invalid_address_rejected (bus : I2cBus) (address : Nat) (data : List Nat)
    (handle : Nat → Nat → Bool) (fuel : Nat) (h : address &&& 0b10000000 ≠ 0) :
    send bus address data
      = (Except.error (I2cErrorKind.invalidAddress.at_address address), []) ∧
    receive bus address handle fuel
      = (Except.error (I2cErrorKind.invalidAddress.at_address address), []) := by
  constructor
  · unfold send; rw [if_pos h]
  · unfold receive; rw [if_pos h]

/-- A concrete bus on which the address phase fails with a bus fault;
data and stop phases would report an acknowledged byte. -/
def cexBus : I2cBus where
  addrStatus := { buserr := true, arblost := false, rxnack := false }
  dataStatus := fun _ => { buserr := false, arblost := false, rxnack := true }
  stopStatus := { buserr := false, arblost := false, rxnack := true }
  readByte := fun _ => 0

/-- Witness for C6: address `0x80` (top bit set) is rejected by both
`send` and `receive` with no recorded bus operation. -/
theorem invalid_address_rejected_witness :
    (128 &&& 0b10000000 ≠ 0) ∧
    send cexBus 128 [1, 2]
      = (Except.error (I2cErrorKind.invalidAddress.at_address 128), []) ∧
    receive cexBus 128 (fun _ _ => true) 5
      = (Except.error (I2cErrorKind.invalidAddress.at_address 128), []) :=
  ⟨by decide,
   (invalid_address_rejected cexBus 128 [1, 2] (fun _ _ => true) 5 (by decide)).1,
   (invalid_address_rejected cexBus 128 [1, 2] (fun _ _ => true) 5 (by decide)).2⟩

lemma check_error_info {st : BusStatus} {bi : I2cErrorByteInfo} {e : I2cError}
    (h : check_bus_status st bi = Except.error e) : e.byte_info = bi := by
  unfold check_bus_status at h
  split_ifs at h
  all_goals (injection h with h2; subst h2; rfl)

lemma sendData_no_stop (bus : I2cBus) : ∀ (data : List Nat) (idx : Nat),
    BusOp.cmdStop ∉ (sendData bus data idx).snd := by
  intro data
  induction data with
  | nil => intro idx; simp [sendData]
  | cons b rest ih =>
    intro idx
    unfold sendData
    rcases hc : check_bus_status (bus.dataStatus idx) (I2cErrorByteInfo.data idx b) with e | u
    · simp [hc]
    · simp only [hc, List.mem_cons]
      rintro (h | h)
      · exact BusOp.noConfusion h
      · exact ih (idx + 1) h

lemma receiveLoop_no_stop (bus : I2cBus) (handle : Nat → Nat → Bool) :
    ∀ (fuel idx : Nat) (e : I2cError),
      (receiveLoop bus handle fuel idx).fst = Except.error e →
      e.byte_info ≠ I2cErrorByteInfo.stopBit →
      BusOp.cmdStop ∉ (receiveLoop bus handle fuel idx).snd := by
  intro fuel
  induction fuel with
  | zero => intro idx e he _; exact Except.noConfusion he
  | succ fuel ih =>
    intro idx e he hne
    unfold receiveLoop at he ⊢
    rcases hc : check_bus_status (bus.dataStatus idx)
        (I2cErrorByteInfo.data idx (bus.readByte idx)) with e2 | u
    · simp [hc]
    · simp only [hc] at he ⊢
      by_cases hh : handle idx (bus.readByte idx)
      · simp only [hh, if_true, List.mem_cons] at he ⊢
        rintro (h | h | h)
        · exact BusOp.noConfusion h
        · exact BusOp.noConfusion h
        · exact ih (idx + 1) e he hne h
      · simp only [hh, if_false] at he
        exact absurd (check_error_info he) hne

/-- C7 counterexample: on a bus whose address phase reports a bus fault,
`send` fails in the address phase and the recorded operation list contains
no STOP command — no STOP is attempted after the failed phase, contrary to
the claim that a STOP is attempted regardless of which phase failed. -/
theorem send_address_error_no_stop_cex :
    (send cexBus 3 [5]).fst
      = Except.error (I2cErrorKind.busError.to_error (I2cErrorByteInfo.address 3)) ∧
    BusOp.cmdStop ∉ (send cexBus 3 [5]).snd := by
  exact ⟨rfl, by decide⟩

/-- C7 (amended): whenever the address phase or a data phase of `send` or
`receive` fails with an error (locator other than the stop bit), the
transfer aborts immediately and no STOP command is issued; a STOP is only
ever issued after all data phases succeed (`send`) or the handler declines
a further byte (`receive`). -/
theorem i2c_error_before_stop_no_stop (bus : I2cBus) (address : Nat) (data : List Nat)
    (handle : Nat → Nat → Bool) (fuel : Nat) (e : I2cError) :
    ((send bus address data).fst = Except.error e →
      e.byte_info ≠ I2cErrorByteInfo.stopBit →
      BusOp.cmdStop ∉ (send bus address data).snd) ∧
    ((receive bus address handle fuel).fst = Except.error e →
      e.byte_info ≠ I2cErrorByteInfo.stopBit →
      BusOp.cmdStop ∉ (receive bus address handle fuel).snd) := by
  constructor
  · intro he hne
    unfold send at he ⊢
    split_ifs at he ⊢
    · simp
    · rcases hc : check_bus_status bus.addrStatus (I2cErrorByteInfo.address address)
          with e2 | u
      · simp [hc]
      · simp only [hc] at he ⊢
        rcases hd : (sendData bus data 0).fst with e3 | u2
        · simp only [hd, List.mem_cons] at he ⊢
          rintro (h | h)
          · exact BusOp.noConfusion h
          · exact absurd h (sendData_no_stop bus data 0)
        · simp only [hd] at he
          exact absurd (check_error_info he) hne
  · intro he hne
    unfold receive at he ⊢
    split_ifs at he ⊢
    · simp
    · rcases hc : check_bus_status bus.addrStatus (I2cErrorByteInfo.address address)
          with e2 | u
      · simp [hc]
      · simp only [hc, List.mem_cons] at he ⊢
        rintro (h | h)
        · exact BusOp.noConfusion h
        · exact absurd h (receiveLoop_no_stop bus handle fuel 0 e he hne)

/-- Witness for C7 (amended): on the concrete failing bus, neither `send`
nor `receive` issues a STOP after the address-phase error. -/
theorem i2c_error_before_stop_no_stop_witness :
    BusOp.cmdStop ∉ (send cexBus 3 [5]).snd ∧
    BusOp.cmdStop ∉ (receive cexBus 3 (fun _ _ => false) 1).snd :=
  ⟨(i2c_error_before_stop_no_stop cexBus 3 [5] (fun _ _ => false) 1
      (I2cErrorKind.busError.to_error (I2cErrorByteInfo.address 3))).1 rfl (by decide),
   (i2c_error_before_stop_no_stop cexBus 3 [5] (fun _ _ => false) 1
      (I2cErrorKind.busError.to_error (I2cErrorByteInfo.address 3))).2 rfl (by decide)⟩

/-! ## Modulation scheduler: the RTC tick handler (src/main.rs) -/

/-- Core clock frequency, `CORE_CLOCK_SPEED_HZ` in `src/init.rs`. -/
def CORE_CLOCK_SPEED_HZ : Nat := 31000000

/-- Carrier frequency, `FREQUENCY_HZ` in `src/dcf77.rs`. -/
def FREQUENCY_HZ : Nat := 77500

/-- The PWM period programmed for the carrier,
`CORE_CLOCK_SPEED_HZ / dcf77::FREQUENCY_HZ` as computed in the tick
handler of `src/main.rs`. -/
def pwmPeriod : Nat := CORE_CLOCK_SPEED_HZ / FREQUENCY_HZ

/-- The state touched by the `RTC` interrupt handler of `src/main.rs`: the
handler-local statics `COUNTER` (sub-tick counter 0..31) and `MINUTE` (the
stored frame word being shifted out), the shared cells `SECOND`,
`DCF77_DATA` and `UPDATE_TIME`, and the carrier duty-cycle register last
written through `Tcc0Pwm::set_duty_cycle`. -/
structure RtcState where
  counter : Nat
  minute : Nat
  second : Nat
  data : Dcf77Data
  updateTime : Bool
  duty : Nat
  deriving DecidableEq

/-- A write to scheduler-shared state or to the carrier performed by one
tick-handler invocation, in source order: `SECOND.set`,
`Tcc0Pwm::set_duty_cycle`, `DCF77_DATA.set`, `UPDATE_TIME.set`. -/
inductive RtcAction where
  | setSecond (v : Nat)
  | setDuty (v : Nat)
  | setData (d : Dcf77Data)
  | setUpdateTime (b : Bool)
  deriving DecidableEq

/-- Whether an action is a wall-clock second advance (`SECOND.set`). -/
def RtcAction.isSetSecond : RtcAction → Bool
  | RtcAction.setSecond _ => true
  | _ => false

/-- Whether an action is a carrier duty-cycle write. -/
def RtcAction.isSetDuty : RtcAction → Bool
  | RtcAction.setDuty _ => true
  | _ => false

/-- Whether an action is a store of a re-encoded time code
(`DCF77_DATA.set`, done only on the minute boundary). -/
def RtcAction.isSetData : RtcAction → Bool
  | RtcAction.setData _ => true
  | _ => false

/-- One invocation of the `RTC` interrupt handler of `src/main.rs`,
translated statement for statement: increment the sub-tick counter mod 32
and return early unless it wrapped to 0; otherwise advance the second
(wrapping 60 to 0); on second 59 silence the carrier, increment and
re-encode the time code and store the new frame word; otherwise shift the
lowest bit out of the frame word and set the matching duty-cycle preset;
finally raise the update flag.  Returns the new state and the list of
shared-state/carrier writes performed. -/
def rtcTick (s : RtcState) : RtcState × List RtcAction :=
  let s1 := { s with counter := (s.counter + 1) % 32 }
  if s1.counter ≠ 0 then (s1, [])
  else
    let second0 := s1.second + 1
    let second := if second0 = 60 then 0 else second0
    let s2 := { s1 with second := second }
    if second = 59 then
      let d := increment_minute s2.data
      ({ s2 with duty := 0, data := d, minute := to_bits d, updateTime := true },
       [RtcAction.setSecond second, RtcAction.setDuty 0, RtcAction.setData d,
        RtcAction.setUpdateTime true])
    else
      let longDuty := s2.minute &&& 1 ≠ 0
      let duty := if longDuty then pwmPeriod / 2 else pwmPeriod / 44
      ({ s2 with minute := s2.minute >>> 1, duty := duty, updateTime := true },
       [RtcAction.setSecond second, RtcAction.setDuty duty,
        RtcAction.setUpdateTime true])

/-- `simulate n s` runs `n` consecutive tick-handler invocations from `s`,
concatenating the performed writes. -/
def simulate : Nat → RtcState → RtcState × List RtcAction
  | 0, s => (s, [])
  | n + 1, s =>
    let r1 := rtcTick s
    let r2 := simulate n r1.fst
    (r2.fst, r1.snd ++ r2.snd)

lemma rtcTick_nonboundary (t : RtcState) (h : (t.counter + 1) % 32 ≠ 0) :
    rtcTick t = ({ t with counter := (t.counter + 1) % 32 }, []) := by
  simp [rtcTick, h]

lemma simulate_add (m n : Nat) (s : RtcState) :
    simulate (m + n) s
      = ((simulate n (simulate m s).fst).fst,
         (simulate m s).snd ++ (simulate n (simulate m s).fst).snd) := by
  induction m generalizing s with
  | zero => simp [simulate]
  | succ m ih =>
    have hadd : m + 1 + n = (m + n) + 1 := by omega
    rw [hadd]
    simp only [simulate, ih, List.append_assoc]

lemma simulate_nonboundary : ∀ (k : Nat) (s : RtcState), s.counter + k ≤ 31 →
    simulate k s = ({ s with counter := s.counter + k }, []) := by
  intro k
  induction k with
  | zero => intro s _; rfl
  | succ k ih =>
    intro s h
    have hmod : (s.counter + 1) % 32 = s.counter + 1 := Nat.mod_eq_of_lt (by omega)
    have hnb : (s.counter + 1) % 32 ≠ 0 := by omega
    simp only [simulate, rtcTick_nonboundary s hnb, hmod]
    rw [ih { s with counter := s.counter + 1 } (by show s.counter + 1 + k ≤ 31; omega)]
    have harith : s.counter + 1 + k = s.counter + (k + 1) := by omega
    show ({ s with counter := s.counter + 1 + k }, ([] : List RtcAction) ++ []) = _
    rw [harith]
    rfl

lemma rtcTick_boundary59 (t : RtcState) (hc : t.counter = 31) (hs : t.second = 58) :
    rtcTick t =
      ({ t with
          counter := 0,
          second := 59,
          duty := 0,
          data := increment_minute t.data,
          minute := to_bits (increment_minute t.data),
          updateTime := true },
       [RtcAction.setSecond 59, RtcAction.setDuty 0,
        RtcAction.setData (increment_minute t.data), RtcAction.setUpdateTime true]) := by
  simp [rtcTick, hc, hs]

lemma rtcTick_boundary_shift (t : RtcState) (hc : t.counter = 31) (hs : t.second < 60)
    (hne : t.second ≠ 58) :
    rtcTick t =
      ({ t with
          counter := 0,
          second := if t.second = 59 then 0 else t.second + 1,
          minute := t.minute >>> 1,
          duty := if t.minute &&& 1 ≠ 0 then pwmPeriod / 2 else pwmPeriod / 44,
          updateTime := true },
       [RtcAction.setSecond (if t.second = 59 then 0 else t.second + 1),
        RtcAction.setDuty (if t.minute &&& 1 ≠ 0 then pwmPeriod / 2 else pwmPeriod / 44),
        RtcAction.setUpdateTime true]) := by
  by_cases h59 : t.second = 59
  · simp [rtcTick, hc, h59]
  · have h60 : t.second + 1 ≠ 60 := by omega
    have hn59 : t.second + 1 ≠ 59 := by omega
    simp [rtcTick, hc, h59, h60, hn59]

lemma simulate_one (t : RtcState) : simulate 1 t = rtcTick t := by
  show ((rtcTick t).fst, (rtcTick t).snd ++ []) = rtcTick t
  rw [List.append_nil]

/-- A concrete scheduler state with the sub-tick counter at 0, used to
refute the claim that the 31 non-boundary invocations change no scheduler
state. -/
def c8State : RtcState where
  counter := 0
  minute := 5
  second := 10
  data := Dcf77Data.new
  updateTime := false
  duty := 9

/-- C8 counterexample: from sub-tick counter 0, the first tick invocation
is not the second-advancing one (the second is unchanged and no
shared-state write is emitted), yet it does change the scheduler state —
it increments the sub-tick counter — so the 31 non-advancing invocations
do not leave the scheduler state unchanged as claimed. -/
theorem rtc_nonboundary_changes_counter_cex :
    (rtcTick c8State).snd = [] ∧
    (rtcTick c8State).fst.second = c8State.second ∧
    (rtcTick c8State).fst ≠ c8State := by
  refine ⟨rfl, rfl, ?_⟩
  decide

/-- C8 (amended): for every scheduler state with sub-tick counter in 0..31
and a valid second, 32 consecutive tick invocations emit exactly one
second-advance write, advancing the second by one (wrapping 59 to 0); if
the new second is not 59 they emit exactly one duty-cycle write, set to
the high preset if the least-significant bit of the stored frame word is 1
and to the low preset if it is 0; and every non-boundary invocation emits
no write at all and changes nothing but the sub-tick counter. -/
theorem rtc_32_ticks (s : RtcState) (hc : s.counter < 32) (hs : s.second < 60) :
    ((simulate 32 s).snd.countP RtcAction.isSetSecond = 1) ∧
    ((simulate 32 s).fst.second = if s.second = 59 then 0 else s.second + 1) ∧
    ((if s.second = 59 then 0 else s.second + 1) ≠ 59 →
      (simulate 32 s).snd.filter RtcAction.isSetDuty
        = [RtcAction.setDuty (if s.minute &&& 1 ≠ 0 then pwmPeriod / 2 else pwmPeriod / 44)]) ∧
    (∀ t : RtcState, (t.counter + 1) % 32 ≠ 0 →
      rtcTick t = ({ t with counter := (t.counter + 1) % 32 }, [])) := by
  have h32 : (32 : Nat) = (31 - s.counter) + (1 + s.counter) := by omega
  have hA := simulate_nonboundary (31 - s.counter) s (by omega)
  have hval : s.counter + (31 - s.counter) = 31 := by omega
  rw [hval] at hA
  have hsplit : simulate 32 s
      = ((simulate s.counter (rtcTick { s with counter := 31 }).fst).fst,
         (rtcTick { s with counter := 31 }).snd
           ++ (simulate s.counter (rtcTick { s with counter := 31 }).fst).snd) := by
    rw [h32, simulate_add, hA]
    show ((simulate (1 + s.counter) { s with counter := 31 }).fst,
          [] ++ (simulate (1 + s.counter) { s with counter := 31 }).snd) = _
    rw [List.nil_append, simulate_add 1 s.counter, simulate_one]
  by_cases h58 : s.second = 58
  · -- the boundary tick advances the second to 59 and re-encodes
    have hb := rtcTick_boundary59 { s with counter := 31 } rfl
      (by show s.second = 58; exact h58)
    rw [hb] at hsplit
    have hrest := simulate_nonboundary s.counter
      ((({ s with
            counter := 0,
            second := 59,
            duty := 0,
            data := increment_minute s.data,
            minute := to_bits (increment_minute s.data),
            updateTime := true } : RtcState)))
      (by show 0 + s.counter ≤ 31; omega)
    rw [show ({ s with counter := 31 } : RtcState).data = s.data from rfl] at hsplit
    rw [hsplit]
    refine ⟨?_, ?_, ?_, fun t ht => rtcTick_nonboundary t ht⟩
    · show List.countP RtcAction.isSetSecond
        ([RtcAction.setSecond 59, RtcAction.setDuty 0,
          RtcAction.setData (increment_minute s.data), RtcAction.setUpdateTime true]
          ++ (simulate s.counter _).snd) = 1
      rw [hrest]
      rfl
    · show (simulate s.counter _).fst.second = _
      rw [hrest, h58]
      rfl
    · intro habs
      rw [h58] at habs
      exact absurd rfl habs
  · -- the boundary tick shifts a frame bit out
    have hb := rtcTick_boundary_shift { s with counter := 31 } rfl
      (by show s.second < 60; exact hs) (by show s.second ≠ 58; exact h58)
    rw [hb] at hsplit
    have hrest := simulate_nonboundary s.counter
      (({ s with
            counter := 0,
            second := if s.second = 59 then 0 else s.second + 1,
            minute := s.minute >>> 1,
            duty := if s.minute &&& 1 ≠ 0 then pwmPeriod / 2 else pwmPeriod / 44,
            updateTime := true } : RtcState))
      (by show 0 + s.counter ≤ 31; omega)
    rw [show (({ s with counter := 31 } : RtcState).second) = s.second from rfl,
        show (({ s with counter := 31 } : RtcState).minute) = s.minute from rfl] at hsplit
    rw [hsplit]
    refine ⟨?_, ?_, ?_, fun t ht => rtcTick_nonboundary t ht⟩
    · show List.countP RtcAction.isSetSecond
        ([RtcAction.setSecond (if s.second = 59 then 0 else s.second + 1),
          RtcAction.setDuty (if s.minute &&& 1 ≠ 0 then pwmPeriod / 2 else pwmPeriod / 44),
          RtcAction.setUpdateTime true] ++ (simulate s.counter _).snd) = 1
      rw [hrest]
      rfl
    · show (simulate s.counter _).fst.second = _
      rw [hrest]
    · intro _
      show List.filter RtcAction.isSetDuty
        ([RtcAction.setSecond (if s.second = 59 then 0 else s.second + 1),
          RtcAction.setDuty (if s.minute &&& 1 ≠ 0 then pwmPeriod / 2 else pwmPeriod / 44),
          RtcAction.setUpdateTime true] ++ (simulate s.counter _).snd) = _
      rw [hrest]
      rfl

/-- Witness for C8 (amended): a concrete state with counter 0 and second 3
satisfies the hypotheses, and the 32 simulated ticks emit exactly one
second-advance write. -/
theorem rtc_32_ticks_witness :
    c8State.counter < 32 ∧ c8State.second < 60 ∧
    (simulate 32 c8State).snd.countP RtcAction.isSetSecond = 1 :=
  ⟨by decide, by decide, (rtc_32_ticks c8State (by decide) (by decide)).1⟩

/-- C9: on a boundary tick whose advanced second equals 59 the handler
writes duty 0 (silencing the carrier), applies `increment_minute` to the
shared time code, stores the re-encoded frame word wholesale (no bit is
shifted), performs no other duty-cycle write, and raises the time-changed
flag — exactly the state change and write sequence below. -/
theorem rtc_minute_boundary (s : RtcState) (h1 : s.counter = 31) (h2 : s.second = 58) :
    rtcTick s =
      ({ s with
          counter := 0,
          second := 59,
          duty := 0,
          data := increment_minute s.data,
          minute := to_bits (increment_minute s.data),
          updateTime := true },
       [RtcAction.setSecond 59, RtcAction.setDuty 0,
        RtcAction.setData (increment_minute s.data), RtcAction.setUpdateTime true]) :=
  rtcTick_boundary59 s h1 h2

/-- Witness for C9: the minute-boundary behaviour at a concrete state with
counter 31 and second 58. -/
theorem rtc_minute_boundary_witness :
    rtcTick { counter := 31, minute := 7, second := 58, data := Dcf77Data.new,
              updateTime := false, duty := 9 }
      = ({ counter := 0, minute := to_bits (increment_minute Dcf77Data.new), second := 59,
           data := increment_minute Dcf77Data.new, updateTime := true, duty := 0 },
         [RtcAction.setSecond 59, RtcAction.setDuty 0,
          RtcAction.setData (increment_minute Dcf77Data.new),
          RtcAction.setUpdateTime true]) :=
  rtc_minute_boundary
    { counter := 31, minute := 7, second := 58, data := Dcf77Data.new,
      updateTime := false, duty := 9 } rfl rfl

/-- The scheduler state at boot, per `src/main.rs`: the handler statics
start at `COUNTER = 31` and `MINUTE = 0`, the cells at `SECOND = 59`,
`DCF77_DATA = Dcf77Data::new()` and `UPDATE_TIME = false`, and the PWM is
started with duty 0. -/
def bootState : RtcState where
  counter := 31
  minute := 0
  second := 59
  data := Dcf77Data.new
  updateTime := false
  duty := 0

/-- The scheduler state right after the `k`-th second boundary since boot
(1 ≤ k ≤ 59) plus the following 31 sub-ticks: counter back at 31, second
`k - 1`, frame word still 0, time code untouched, low duty applied. -/
def bootAfter (k : Nat) : RtcState where
  counter := 31
  minute := 0
  second := k - 1
  data := Dcf77Data.new
  updateTime := true
  duty := pwmPeriod / 44

/-- The writes emitted during the first `k` boot-time second boundaries:
each advances the second and applies the low-duty preset. -/
def bootTrace (k : Nat) : List RtcAction :=
  (List.range k).flatMap (fun i =>
    [RtcAction.setSecond i, RtcAction.setDuty (pwmPeriod / 44),
     RtcAction.setUpdateTime true])

lemma boot_chunk0 : simulate 32 bootState
    = (bootAfter 1,
       [RtcAction.setSecond 0, RtcAction.setDuty (pwmPeriod / 44),
        RtcAction.setUpdateTime true]) := by
  decide

lemma boot_chunk : ∀ j < 58, simulate 32 (bootAfter (j + 1))
    = (bootAfter (j + 2),
       [RtcAction.setSecond (j + 1), RtcAction.setDuty (pwmPeriod / 44),
        RtcAction.setUpdateTime true]) := by
  decide

lemma boot_sim : ∀ k : Nat, 1 ≤ k → k ≤ 59 →
    simulate (32 * k) bootState = (bootAfter k, bootTrace k) := by
  intro k
  induction k with
  | zero => intro h1 _; exact absurd h1 (by omega)
  | succ k ih =>
    intro _ h2
    by_cases hk : k = 0
    · subst hk
      show simulate 32 bootState = (bootAfter 1, bootTrace 1)
      exact boot_chunk0
    · have hk1 : 1 ≤ k := by omega
      have hmul : 32 * (k + 1) = 32 * k + 32 := by ring
      rw [hmul, simulate_add, ih hk1 (by omega)]
      show ((simulate 32 (bootAfter k)).fst,
            bootTrace k ++ (simulate 32 (bootAfter k)).snd)
          = (bootAfter (k + 1), bootTrace (k + 1))
      obtain ⟨j, rfl⟩ : ∃ j, k = j + 1 := ⟨k - 1, by omega⟩
      rw [boot_chunk j (by omega)]
      have htr : bootTrace (j + 1)
          ++ [RtcAction.setSecond (j + 1), RtcAction.setDuty (pwmPeriod / 44),
              RtcAction.setUpdateTime true] = bootTrace (j + 1 + 1) := by
        simp [bootTrace, List.range_succ]
      rw [htr]

/-- C10: from the boot state (frame word 0, second 59, counter 31) the
first 59 second boundaries each emit a low-duty write (the shifted-out
bit of the stored frame word is always 0, regardless of what
`to_bits Dcf77Data.new` would contain), no re-encoded time code is stored
during them and the frame word stays 0; the first frame derived from the
time code is the one for the minute after `Dcf77Data.new`, produced at
the first second-59 boundary — `to_bits Dcf77Data.new` itself is never
shifted out. -/
theorem boot_first_minute_frame :
    ((simulate (32 * 59) bootState).snd.filter RtcAction.isSetDuty
        = List.replicate 59 (RtcAction.setDuty (pwmPeriod / 44))) ∧
    ((simulate (32 * 59) bootState).snd.filter RtcAction.isSetData = []) ∧
    ((simulate (32 * 59) bootState).snd.filter RtcAction.isSetSecond
        = (List.range 59).map RtcAction.setSecond) ∧
    ((simulate (32 * 59) bootState).fst.minute = 0) ∧
    ((simulate (32 * 59 + 1) bootState).snd.filter RtcAction.isSetData
        = [RtcAction.setData (increment_minute Dcf77Data.new)]) ∧
    ((simulate (32 * 59 + 1) bootState).fst.minute
        = to_bits (increment_minute Dcf77Data.new)) ∧
    ((simulate (32 * 59 + 1) bootState).fst.second = 59) := by
  have h59 := boot_sim 59 (by omega) (by omega)
  have hbtick := rtcTick_boundary59 (bootAfter 59) rfl rfl
  have h60 : simulate (32 * 59 + 1) bootState
      = ((rtcTick (bootAfter 59)).fst, bootTrace 59 ++ (rtcTick (bootAfter 59)).snd) := by
    rw [simulate_add, h59]
    show ((simulate 1 (bootAfter 59)).fst,
          bootTrace 59 ++ (simulate 1 (bootAfter 59)).snd) = _
    rw [simulate_one]
  rw [h59, h60, hbtick]
  refine ⟨?_, ?_, ?_, rfl, ?_, rfl, rfl⟩
  · decide
  · decide
  · decide
  · decide
